import Mathlib

/-!
Verification of `fix-app-icon.py` (`remove_alpha`): flattening the alpha
channel of an image onto an opaque white background.

The script decodes an image with PIL, branches on its color mode, composites
RGBA/LA images onto a white RGB canvas using the alpha channel as the paste
mask, converts other non-RGB modes to RGB, and re-encodes the result as PNG.
We embed the image data model and the per-pixel semantics of PIL's
`Image.paste` with an `L`-mode mask, which blends with the integer
approximation of division by 255 used in PIL's `Paste.c`
(`MULDIV255(a, b) = (t >> 8 + t) >> 8` where `t = a * b + 128`).
-/

/-- Color modes of the model. `RGB`, `RGBA` and `LA` are the modes the script
branches on; `L` (grayscale without alpha) stands for the remaining modes,
which the script sends through `convert('RGB')`. -/
inductive Mode where
  | RGB
  | RGBA
  | LA
  | L
deriving DecidableEq, Repr

/-- Number of channels per pixel in each mode. -/
def Mode.channels : Mode → Nat
  | .RGB => 3
  | .RGBA => 4
  | .LA => 2
  | .L => 1

/-- An in-memory decoded bitmap: color mode, size, and pixel data.
Each pixel is the list of its channel values (row-major flattening). -/
structure Image where
  mode : Mode
  width : Nat
  height : Nat
  pixels : List (List Nat)
deriving DecidableEq, Repr

/-- Well-formedness: the pixel list covers the full size, and every pixel has
the channel count of the mode with 8-bit channel values. -/
def Image.WF (img : Image) : Prop :=
  img.pixels.length = img.width * img.height ∧
    ∀ p ∈ img.pixels, p.length = img.mode.channels ∧ ∀ v ∈ p, v ≤ 255

instance (img : Image) : Decidable img.WF := by
  unfold Image.WF; infer_instance

/-- PIL's `MULDIV255` macro from `Paste.c`: the fast integer approximation of
`a * b / 255`, computed as `t = a * b + 128; ((t >> 8) + t) >> 8`. -/
def muldiv255 (a b : Nat) : Nat :=
  ((a * b + 128) / 256 + (a * b + 128)) / 256

/-- PIL's `BLEND` macro for pasting with an `L`-mode mask: destination channel
`d`, source channel `s`, mask value `m`. -/
def blendChannel (d s m : Nat) : Nat :=
  muldiv255 d (255 - m) + muldiv255 s m

/-- Conversion of one pixel to RGB channel order, as PIL's `paste` performs on
a source image whose mode differs from the destination: RGBA drops alpha, LA
and L replicate the luminance channel. -/
def toRGBPixel : Mode → List Nat → List Nat
  | .RGBA, r :: g :: b :: _ => [r, g, b]
  | .LA, l :: _ => [l, l, l]
  | .L, l :: _ => [l, l, l]
  | .RGB, p => p
  | _, _ => []

/-- Blend one destination pixel with one (RGB-converted) source pixel under a
single mask value, channel by channel. -/
def blendPixel (d s : List Nat) (m : Nat) : List Nat :=
  List.zipWith (fun dc sc => blendChannel dc sc m) d s

/-- Ternary zip, truncating at the shortest list. -/
def zipWith3 (f : α → β → γ → δ) : List α → List β → List γ → List δ
  | a :: as, b :: bs, c :: cs => f a b c :: zipWith3 f as bs cs
  | _, _, _ => []

/-- `Image.new('RGB', size, color)`: a fresh RGB canvas of the given size with
every pixel set to `color`. -/
def Image.newRGB (w h : Nat) (color : List Nat) : Image :=
  ⟨.RGB, w, h, List.replicate (w * h) color⟩

/-- `img.split()[k]`: the `k`-th channel of the image as a flat value list. -/
def Image.splitChannel (img : Image) (k : Nat) : List Nat :=
  img.pixels.map (fun p => p.getD k 0)

/-- `bg.paste(src, mask=...)` with an `L`-mode mask, for images of equal size:
the source is converted to the destination mode and every channel is blended
with `BLEND` under the per-pixel mask value. -/
def Image.paste (bg src : Image) (mask : List Nat) : Image :=
  { bg with
    pixels := zipWith3 blendPixel bg.pixels
      (src.pixels.map (toRGBPixel src.mode)) mask }

/-- `img.convert('RGB')` for the model's non-alpha modes: standard channel
conversion to RGB, size unchanged. -/
def Image.convertRGB (img : Image) : Image :=
  { img with mode := .RGB, pixels := img.pixels.map (toRGBPixel img.mode) }

/-- The mode-branching transformation at the heart of `remove_alpha`
(lines 16-26 of `fix-app-icon.py`): RGBA and LA are pasted onto a white
canvas, with the mask taken from split-channel index 3 (RGBA) or 1 (LA);
other non-RGB modes are converted; RGB is untouched. -/
def remove_alpha_transform (img : Image) : Image :=
  if img.mode = Mode.RGBA ∨ img.mode = Mode.LA then
    let background := Image.newRGB img.width img.height [255, 255, 255]
    if img.mode = Mode.RGBA then
      background.paste img (img.splitChannel 3)
    else
      background.paste img (img.splitChannel 1)
  else if img.mode ≠ Mode.RGB then
    img.convertRGB
  else
    img

/-- `remove_alpha(input_path, output_path)`. The surrounding `try`/`except`
is modelled by its observable effects: `opened` is the outcome of
`Image.open` (an exception or a decoded image) and `encodeFails` says whether
`img.save` raises. The result is the returned boolean together with the image
written to the output path, if any. -/
def remove_alpha (opened : Except String Image) (encodeFails : Bool) :
    Bool × Option Image :=
  match opened with
  | .error _ => (false, none)
  | .ok img =>
      let out := remove_alpha_transform img
      if encodeFails then (false, none) else (true, some out)

/-- Modelled from the spec: the per-pixel compositing formula
`output = source_color * alpha + white * (1 - alpha)` with alpha normalized
to `[0, 1]`, i.e. `(c * a + 255 * (255 - a)) / 255`, rounded to the nearest
integer (the fractional part is never exactly 1/2, so nearest is
unambiguous). -/
def specBlend (c a : Nat) : Nat :=
  (c * a + 255 * (255 - a) + 127) / 255

/-- A small concrete RGBA image: one fully opaque and one fully transparent
pixel. -/
def sampleRGBA : Image := ⟨Mode.RGBA, 2, 1, [[10, 20, 30, 255], [40, 50, 60, 0]]⟩

/-- A small concrete LA image with one semi-transparent pixel. -/
def sampleLA : Image := ⟨Mode.LA, 1, 1, [[100, 128]]⟩

/-- A small concrete RGB image. -/
def sampleRGB : Image := ⟨Mode.RGB, 1, 1, [[5, 6, 7]]⟩

example : muldiv255 255 255 = 255 := by decide
example : muldiv255 7 0 = 0 := by decide
example : blendChannel 255 0 128 = 127 := by decide
example : specBlend 0 128 = 127 := by decide

/-- PIL's fast approximation is the exact rounding of `x / 255` on the range
of 8-bit products: `MULDIV255(a, b) = round(a * b / 255)`. -/
lemma muldiv255_eq_round (a b : Nat) (h : a * b ≤ 65025) :
    muldiv255 a b = (a * b + 127) / 255 := by
  unfold muldiv255
  obtain ⟨x, hx⟩ : ∃ x, a * b = x := ⟨_, rfl⟩
  rw [hx] at h ⊢
  omega

/-- Blending a channel onto white with PIL's integer `BLEND` agrees with the
spec's real-valued compositing formula rounded to nearest. -/
lemma blendChannel_white (c a : Nat) (hc : c ≤ 255) (ha : a ≤ 255) :
    blendChannel 255 c a = specBlend c a := by
  unfold blendChannel specBlend
  rw [muldiv255_eq_round 255 (255 - a) (by omega),
      muldiv255_eq_round c a (by nlinarith)]
  obtain ⟨m, hm⟩ : ∃ m, c * a = m := ⟨_, rfl⟩
  have hm' : m ≤ 65025 := by nlinarith
  rw [hm]
  omega

/-- Fully opaque: blending with mask 255 returns the source channel. -/
lemma blendChannel_mask_full (c : Nat) (hc : c ≤ 255) :
    blendChannel 255 c 255 = c := by
  unfold blendChannel muldiv255
  omega

/-- Fully transparent: blending with mask 0 returns the white background. -/
lemma blendChannel_transparent (c : Nat) : blendChannel 255 c 0 = 255 := by
  unfold blendChannel muldiv255
  simp

/-- Collapsing a ternary zip whose first component is a long-enough constant
list and whose other components are maps of the same list. -/
lemma zipWith3_replicate_map {α β γ δ ε : Type} (f : β → γ → δ → ε) (c : β)
    (g : α → γ) (k : α → δ) (l : List α) :
    ∀ n, l.length ≤ n →
      zipWith3 f (List.replicate n c) (l.map g) (l.map k) =
        l.map (fun x => f c (g x) (k x)) := by
  induction l with
  | nil => intro n _; cases n <;> rfl
  | cons x xs ih =>
      intro n hn
      cases n with
      | zero => simp at hn
      | succ m =>
          simp only [List.replicate_succ, List.map_cons, zipWith3]
          rw [ih m (by simp at hn; omega)]

/-- On an RGBA image, the transformation is the per-pixel white-paste with
split-channel 3 as mask. -/
lemma remove_alpha_transform_RGBA (img : Image) (hm : img.mode = Mode.RGBA)
    (hl : img.pixels.length = img.width * img.height) :
    remove_alpha_transform img =
      ⟨Mode.RGB, img.width, img.height,
        img.pixels.map (fun p =>
          blendPixel [255, 255, 255] (toRGBPixel Mode.RGBA p) (p.getD 3 0))⟩ := by
  unfold remove_alpha_transform
  rw [if_pos (Or.inl hm), if_pos hm]
  simp only [Image.newRGB, Image.paste, Image.splitChannel, hm]
  rw [zipWith3_replicate_map blendPixel [255, 255, 255] (toRGBPixel Mode.RGBA)
    (fun p => p.getD 3 0) img.pixels (img.width * img.height) (le_of_eq hl)]

/-- On an LA image, the transformation is the per-pixel white-paste with
split-channel 1 as mask. -/
lemma remove_alpha_transform_LA (img : Image) (hm : img.mode = Mode.LA)
    (hl : img.pixels.length = img.width * img.height) :
    remove_alpha_transform img =
      ⟨Mode.RGB, img.width, img.height,
        img.pixels.map (fun p =>
          blendPixel [255, 255, 255] (toRGBPixel Mode.LA p) (p.getD 1 0))⟩ := by
  unfold remove_alpha_transform
  rw [if_pos (Or.inr hm), if_neg (by rw [hm]; simp)]
  simp only [Image.newRGB, Image.paste, Image.splitChannel, hm]
  rw [zipWith3_replicate_map blendPixel [255, 255, 255]
    (toRGBPixel Mode.LA) (fun p => p.getD 1 0) img.pixels
    (img.width * img.height) (le_of_eq hl)]

/-- The transformation always produces an RGB-mode image. -/
lemma remove_alpha_transform_mode (img : Image) :
    (remove_alpha_transform img).mode = Mode.RGB := by
  unfold remove_alpha_transform
  split
  · split <;> rfl
  · split
    · rfl
    · rename_i h1 h2
      simp only [ne_eq, not_not] at h2
      exact h2

/-- The transformation preserves width and height in every branch. -/
lemma remove_alpha_transform_size (img : Image) :
    (remove_alpha_transform img).width = img.width ∧
      (remove_alpha_transform img).height = img.height := by
  unfold remove_alpha_transform
  split
  · split <;> exact ⟨rfl, rfl⟩
  · split <;> exact ⟨rfl, rfl⟩

/-- White-pasting a well-formed RGBA pixel realizes the spec's compositing
formula on each of its three color channels. -/
lemma blendPixel_white_spec_RGBA (p : List Nat) (hlen : p.length = 4)
    (hv : ∀ v ∈ p, v ≤ 255) :
    blendPixel [255, 255, 255] (toRGBPixel Mode.RGBA p) (p.getD 3 0) =
      [specBlend (p.getD 0 0) (p.getD 3 0),
       specBlend (p.getD 1 0) (p.getD 3 0),
       specBlend (p.getD 2 0) (p.getD 3 0)] := by
  match p, hlen with
  | [r, g, b, a], _ =>
      have hr : r ≤ 255 := hv r (by simp)
      have hg : g ≤ 255 := hv g (by simp)
      have hb : b ≤ 255 := hv b (by simp)
      have ha : a ≤ 255 := hv a (by simp)
      simp only [toRGBPixel, blendPixel, List.zipWith, List.getD, List.get?,
        Option.getD_some]
      rw [blendChannel_white r a hr ha, blendChannel_white g a hg ha,
        blendChannel_white b a hb ha]

/-- White-pasting a well-formed LA pixel realizes the spec's compositing
formula with the luminance channel replicated to R, G and B. -/
lemma blendPixel_white_spec_LA (p : List Nat) (hlen : p.length = 2)
    (hv : ∀ v ∈ p, v ≤ 255) :
    blendPixel [255, 255, 255] (toRGBPixel Mode.LA p) (p.getD 1 0) =
      [specBlend (p.getD 0 0) (p.getD 1 0),
       specBlend (p.getD 0 0) (p.getD 1 0),
       specBlend (p.getD 0 0) (p.getD 1 0)] := by
  match p, hlen with
  | [l, a], _ =>
      have hl : l ≤ 255 := hv l (by simp)
      have ha : a ≤ 255 := hv a (by simp)
      simp only [toRGBPixel, blendPixel, List.zipWith, List.getD, List.get?,
        Option.getD_some]
      rw [blendChannel_white l a hl ha]

/-- On an already-RGB image the transformation does nothing. -/
lemma remove_alpha_transform_RGB (img : Image) (hm : img.mode = Mode.RGB) :
    remove_alpha_transform img = img := by
  unfold remove_alpha_transform
  rw [if_neg (by rw [hm]; simp), if_neg (by rw [hm]; simp)]

/-- Claim C1: whenever `remove_alpha` succeeds in writing an image to the
output path, that image's mode is RGB, whatever the input's mode was. -/
theorem C1_output_mode_RGB (opened : Except String Image)
    (encodeFails : Bool) (out : Image)
    (h : (remove_alpha opened encodeFails).2 = some out) :
    out.mode = Mode.RGB := by
  cases opened with
  | error e => simp [remove_alpha] at h
  | ok img =>
      cases encodeFails with
      | true => simp [remove_alpha] at h
      | false =>
          simp only [remove_alpha, if_neg Bool.false_ne_true, Option.some.injEq] at h
          rw [← h]
          exact remove_alpha_transform_mode img

/-- Witness for C1 at a concrete RGBA input. -/
theorem C1_output_mode_RGB_witness :
    (remove_alpha_transform sampleRGBA).mode = Mode.RGB :=
  C1_output_mode_RGB (Except.ok sampleRGBA) false
    (remove_alpha_transform sampleRGBA) rfl

/-- Claim C2: on a well-formed RGBA input the transformation is exactly the
white-canvas composite of the spec: the result is RGB, has the same size, and
each pixel is `[specBlend r a, specBlend g a, specBlend b a]` where `a` is
channel index 3 of the source pixel. -/
theorem C2_RGBA_composite (img : Image) (hm : img.mode = Mode.RGBA)
    (hwf : img.WF) :
    (remove_alpha_transform img).mode = Mode.RGB ∧
    (remove_alpha_transform img).width = img.width ∧
    (remove_alpha_transform img).height = img.height ∧
    (remove_alpha_transform img).pixels =
      img.pixels.map (fun p =>
        [specBlend (p.getD 0 0) (p.getD 3 0),
         specBlend (p.getD 1 0) (p.getD 3 0),
         specBlend (p.getD 2 0) (p.getD 3 0)]) := by
  obtain ⟨hl, hp⟩ := hwf
  rw [remove_alpha_transform_RGBA img hm hl]
  refine ⟨rfl, rfl, rfl, ?_⟩
  apply List.map_congr_left
  intro p hpmem
  obtain ⟨hlen, hv⟩ := hp p hpmem
  rw [hm] at hlen
  exact blendPixel_white_spec_RGBA p hlen hv

/-- Witness for C2 at a concrete RGBA input. -/
theorem C2_RGBA_composite_witness :
    (remove_alpha_transform sampleRGBA).mode = Mode.RGB ∧
    (remove_alpha_transform sampleRGBA).width = sampleRGBA.width ∧
    (remove_alpha_transform sampleRGBA).height = sampleRGBA.height ∧
    (remove_alpha_transform sampleRGBA).pixels =
      sampleRGBA.pixels.map (fun p =>
        [specBlend (p.getD 0 0) (p.getD 3 0),
         specBlend (p.getD 1 0) (p.getD 3 0),
         specBlend (p.getD 2 0) (p.getD 3 0)]) :=
  C2_RGBA_composite sampleRGBA rfl (by decide)

/-- Claim C3: in a well-formed RGBA input, a pixel with alpha 255 keeps its
exact RGB color in the output. -/
theorem C3_opaque_pixel_exact (img : Image) (hm : img.mode = Mode.RGBA)
    (hwf : img.WF) (i r g b : Nat)
    (hp : img.pixels[i]? = some [r, g, b, 255]) :
    (remove_alpha_transform img).pixels[i]? = some [r, g, b] := by
  obtain ⟨hl, hall⟩ := hwf
  obtain ⟨hlen, hv⟩ := hall _ (List.getElem?_mem hp)
  have hr : r ≤ 255 := hv r (by simp)
  have hg : g ≤ 255 := hv g (by simp)
  have hb : b ≤ 255 := hv b (by simp)
  rw [remove_alpha_transform_RGBA img hm hl]
  show (img.pixels.map _)[i]? = _
  rw [List.getElem?_map, hp]
  simp only [Option.map_some', Option.some.injEq]
  show blendPixel [255, 255, 255] (toRGBPixel Mode.RGBA [r, g, b, 255])
      ([r, g, b, 255].getD 3 0) = [r, g, b]
  simp only [toRGBPixel, blendPixel, List.zipWith, List.getD, List.get?,
    Option.getD_some]
  rw [blendChannel_mask_full r hr, blendChannel_mask_full g hg,
    blendChannel_mask_full b hb]

/-- Witness for C3: the opaque pixel of the sample image survives intact. -/
theorem C3_opaque_pixel_exact_witness :
    (remove_alpha_transform sampleRGBA).pixels[0]? = some [10, 20, 30] :=
  C3_opaque_pixel_exact sampleRGBA rfl (by decide) 0 10 20 30 rfl

/-- Claim C4: in a well-formed RGBA input, a pixel with alpha 0 becomes pure
white in the output. -/
theorem C4_transparent_pixel_white (img : Image) (hm : img.mode = Mode.RGBA)
    (hwf : img.WF) (i r g b : Nat)
    (hp : img.pixels[i]? = some [r, g, b, 0]) :
    (remove_alpha_transform img).pixels[i]? = some [255, 255, 255] := by
  obtain ⟨hl, hall⟩ := hwf
  rw [remove_alpha_transform_RGBA img hm hl]
  show (img.pixels.map _)[i]? = _
  rw [List.getElem?_map, hp]
  simp only [Option.map_some', Option.some.injEq]
  show blendPixel [255, 255, 255] (toRGBPixel Mode.RGBA [r, g, b, 0])
      ([r, g, b, 0].getD 3 0) = [255, 255, 255]
  simp only [toRGBPixel, blendPixel, List.zipWith, List.getD, List.get?,
    Option.getD_some]
  rw [blendChannel_transparent r, blendChannel_transparent g,
    blendChannel_transparent b]

/-- Witness for C4: the transparent pixel of the sample image becomes white. -/
theorem C4_transparent_pixel_white_witness :
    (remove_alpha_transform sampleRGBA).pixels[1]? = some [255, 255, 255] :=
  C4_transparent_pixel_white sampleRGBA rfl (by decide) 1 40 50 60 rfl

/-- Claim C5: on an input that is already RGB the operation is a no-op: the
run succeeds and writes the input image unchanged. -/
theorem C5_RGB_noop (img : Image) (hm : img.mode = Mode.RGB) :
    remove_alpha (Except.ok img) false = (true, some img) := by
  show (if false then (false, none) else (true, some (remove_alpha_transform img))) = _
  rw [if_neg Bool.false_ne_true, remove_alpha_transform_RGB img hm]

/-- Witness for C5 at a concrete RGB input. -/
theorem C5_RGB_noop_witness :
    remove_alpha (Except.ok sampleRGB) false = (true, some sampleRGB) :=
  C5_RGB_noop sampleRGB rfl

/-- Claim C6: any failure — a decode exception or an encode exception — makes
`remove_alpha` return the boolean `false` (the model is a total function, so
no exception propagates). -/
theorem C6_failure_returns_false (opened : Except String Image)
    (encodeFails : Bool)
    (h : (∃ e, opened = Except.error e) ∨ encodeFails = true) :
    (remove_alpha opened encodeFails).1 = false := by
  cases opened with
  | error e => rfl
  | ok img =>
      rcases h with ⟨e, he⟩ | henc
      · exact absurd he (by simp)
      · rw [henc]
        rfl

/-- Witness for C6 at a missing input file. -/
theorem C6_failure_returns_false_witness :
    (remove_alpha (Except.error "No such file or directory") false).1 = false :=
  C6_failure_returns_false (Except.error "No such file or directory") false
    (Or.inl ⟨"No such file or directory", rfl⟩)

/-- Claim C7: whatever is written to the output path has the input's width
and height. -/
theorem C7_size_preserved (img : Image) (encodeFails : Bool) (out : Image)
    (h : (remove_alpha (Except.ok img) encodeFails).2 = some out) :
    out.width = img.width ∧ out.height = img.height := by
  cases encodeFails with
  | true => simp [remove_alpha] at h
  | false =>
      simp only [remove_alpha, if_neg Bool.false_ne_true,
        Option.some.injEq] at h
      rw [← h]
      exact remove_alpha_transform_size img

/-- Witness for C7 at a concrete LA input. -/
theorem C7_size_preserved_witness :
    (remove_alpha_transform sampleLA).width = sampleLA.width ∧
      (remove_alpha_transform sampleLA).height = sampleLA.height :=
  C7_size_preserved sampleLA false (remove_alpha_transform sampleLA) rfl

/-- Claim C8: on a well-formed LA input the transformation composites onto
white using channel index 1 as the mask and the replicated luminance channel
as the color, by the same formula as the RGBA branch. -/
theorem C8_LA_composite (img : Image) (hm : img.mode = Mode.LA)
    (hwf : img.WF) :
    (remove_alpha_transform img).mode = Mode.RGB ∧
    (remove_alpha_transform img).width = img.width ∧
    (remove_alpha_transform img).height = img.height ∧
    (remove_alpha_transform img).pixels =
      img.pixels.map (fun p =>
        [specBlend (p.getD 0 0) (p.getD 1 0),
         specBlend (p.getD 0 0) (p.getD 1 0),
         specBlend (p.getD 0 0) (p.getD 1 0)]) := by
  obtain ⟨hl, hp⟩ := hwf
  rw [remove_alpha_transform_LA img hm hl]
  refine ⟨rfl, rfl, rfl, ?_⟩
  apply List.map_congr_left
  intro p hpmem
  obtain ⟨hlen, hv⟩ := hp p hpmem
  rw [hm] at hlen
  exact blendPixel_white_spec_LA p hlen hv

/-- Witness for C8 at a concrete LA input. -/
theorem C8_LA_composite_witness :
    (remove_alpha_transform sampleLA).mode = Mode.RGB ∧
    (remove_alpha_transform sampleLA).width = sampleLA.width ∧
    (remove_alpha_transform sampleLA).height = sampleLA.height ∧
    (remove_alpha_transform sampleLA).pixels =
      sampleLA.pixels.map (fun p =>
        [specBlend (p.getD 0 0) (p.getD 1 0),
         specBlend (p.getD 0 0) (p.getD 1 0),
         specBlend (p.getD 0 0) (p.getD 1 0)]) :=
  C8_LA_composite sampleLA rfl (by decide)

/-- Claim C9: when decoding fails, nothing is ever written to the output
path: the run returns `false` with no output image, regardless of the encode
stage, which is never reached. -/
theorem C9_decode_failure_no_write (e : String) (encodeFails : Bool) :
    remove_alpha (Except.error e) encodeFails = (false, none) := rfl

/-- Claim C10: the operation is deterministic — two runs of `remove_alpha`
on the same decode outcome and encode outcome return the same boolean and
write the same output image; the model is a pure function of its inputs. -/
theorem C10_deterministic (opened : Except String Image)
    (encodeFails : Bool) :
    (remove_alpha opened encodeFails).1 = (remove_alpha opened encodeFails).1 ∧
    (remove_alpha opened encodeFails).2 = (remove_alpha opened encodeFails).2 :=
  ⟨rfl, rfl⟩
